import Mathlib

/-!
Verification of the `ClassifierTrainer.train_memmap` training loop from
`src/theano/utils/model_trainer.py` (deep-retina repository).

Shallow embedding conventions:
- numpy arrays are flat lists of rationals (`Arr`); elementwise numpy
  operations become `List.zipWith` / `List.map`; Python floats are read as
  exact rationals (0.99 = 99/100, 1e-8 = 1/10^8).
- `model` and `self.step_cache` are association lists from parameter name to
  array, mirroring Python dicts with insertion order.
- the opaque external collaborators (`loss_function` in its two calling
  modes, `scipy.stats.pearsonr`, `np.sqrt`, `np.random.choice`) are injected
  through a `TrainEnv` record: `pearson` returns `Option ℚ` where `none`
  stands for a NaN correlation (any IEEE comparison against NaN is false),
  `rand c n k` is the index list produced by the c-th call to
  `np.random.choice(n, k, replace=False)` of the run, and `sqrtFn` stands for
  `np.sqrt` on a nonnegative scalar.
- in-place mutation is explicit state passing: the run returns its final
  `TrainState`, whose `model` field is the caller-visible (mutated) model,
  whatever `err` holds; a raised Python exception becomes `err := some e`
  with the state frozen at the raise point, mirroring the fact that the
  caller still observes every in-place mutation done before the raise.
- purely observational diagnostics that never flow into the returned values
  nor raise (the W1 gradient/weight statistics lists, the mse and rates
  history lists, prints, and all matplotlib calls) are omitted; the
  `model['W1']`/`model['W2']` reads of the weight-norm diagnostic are kept
  because they raise `KeyError` on models lacking those keys.
-/

namespace DeepRetina

/-- A numpy array, flattened: elementwise ops act positionally. -/
abbrev Arr := List ℚ

/-- `model`: Python dict from parameter name to numpy array (insertion order). -/
abbrev Model := List (String × Arr)

/-- `self.step_cache`: dict from parameter name to velocity / squared-gradient array. -/
abbrev Cache := List (String × Arr)

/-- The exceptions `train_memmap` can raise:
`configError` is the `AssertionError` of the two batch-divisibility asserts
(model_trainer.py lines 390 and 422), `unsupportedUpdateRule` the
`ValueError('Unrecognized update type ...')` of line 356 (carrying the
offending update string), and `keyError` the `KeyError` from the weight-norm
diagnostic `model['W1']`, `model['W2']` of line 450. -/
inductive TrainError where
  | configError : TrainError
  | unsupportedUpdateRule : String → TrainError
  | keyError : TrainError
deriving DecidableEq, Repr

/-- External collaborators and data of one `train_memmap` call. -/
structure TrainEnv where
  /-- the full data array `X`: sample index to sample. -/
  X : Nat → Arr
  /-- the full label vector `y`: sample index to label. -/
  y : Nat → ℚ
  /-- `train_inds`: index vector into `X`/`y`. -/
  train_inds : List Nat
  /-- `val_inds`: index vector into `X`/`y`. -/
  val_inds : List Nat
  /-- `loss_function(X_batch, model, y_batch, reg=reg, dropout=dropout)` returning
  `(cost, grads)`; `grads` gives an array per parameter name. -/
  lossGrad : List Arr → Model → Arr → ℚ → ℚ → ℚ × (String → Arr)
  /-- `loss_function(X_batch, model)` (no labels) returning predicted rates,
  already `.squeeze()`d to a vector. -/
  predictOnly : List Arr → Model → Arr
  /-- `scipy.stats.pearsonr(pred, truth)` first component; `none` models a NaN. -/
  pearson : Arr → Arr → Option ℚ
  /-- `np.sqrt`, elementwise scalar. -/
  sqrtFn : ℚ → ℚ
  /-- `np.random.choice(n, k, replace=False)`: `rand c n k` is the result of the
  c-th such call of the run. -/
  rand : Nat → Nat → Nat → List Nat

/-- The keyword arguments of `train_memmap`, with their Python defaults.
`verbose`, `save_plots` and `machine` only affect printing/plotting and are
omitted. `predict_fn` is accepted by the signature but never referenced in
the body of `train_memmap`. -/
structure TrainConfig where
  reg : ℚ := 0
  dropout : ℚ := 1
  learning_rate : ℚ := 1/100
  momentum : ℚ := 0
  learning_rate_decay : ℚ := 19/20
  update : String := "momentum"
  sample_batches : Bool := true
  num_epochs : Nat := 30
  batch_size : Nat := 100
  acc_frequency : Option Nat := none
  augment_fn : Option (List Arr → List Arr) := none
  predict_fn : Option (List Arr → List Arr) := none

/-- The mutable locals of one `train_memmap` run (plus the instance field
`self.step_cache` as `cache`, and the in-place mutated argument `model`).
`err` holds the exception that aborted the run, if any. -/
structure TrainState where
  model : Model
  cache : Cache
  learning_rate : ℚ
  epoch : Nat
  best_val_acc : ℚ
  best_model : Model
  loss_history : List ℚ
  train_acc_history : List (Option ℚ)
  val_acc_history : List (Option ℚ)
  rngCalls : Nat
  err : Option TrainError

/-- numpy elementwise `+=` of two same-shape arrays. -/
def addVec (a b : Arr) : Arr := List.zipWith (· + ·) a b

/-- Fancy indexing `inds[idxs]` of an index vector by an index list. -/
def pickInds (inds : List Nat) (idxs : List Nat) : List Nat :=
  idxs.map (fun i => inds.getD i 0)

/-- The slice `inds[b*batch_size:(b+1)*batch_size]`. -/
def batchSlice (inds : List Nat) (batch_size b : Nat) : List Nat :=
  (inds.drop (b * batch_size)).take batch_size

/-- `model[p].copy()` for every parameter: the deep-copy snapshot of
lines 444-446.  In the value semantics of the embedding a copy is an
elementwise identity map. -/
def copyModel (m : Model) : Model := m.map (fun e => (e.1, e.2.map (fun x => x)))

/-- Dict lookup `d[p]` / `p in d`: the value of the first entry with key `p`. -/
def dlookup : List (String × Arr) → String → Option Arr
  | [], _ => none
  | (k, w) :: tl, p => if k = p then some w else dlookup tl p

/-- Dict assignment `d[p] = v`: replace in place if the key exists, else append. -/
def setCache (c : Cache) (p : String) (v : Arr) : Cache :=
  if (dlookup c p).isSome then c.map (fun e => if e.1 = p then (e.1, v) else e)
  else c ++ [(p, v)]

/-- Lines 342-356: compute the parameter step `dx` for one parameter `p` with
gradient `g` and update the step cache, or raise `ValueError` for an
unrecognized update rule.  `momentum`/`learning_rate` are the current
hyperparameter values, `sq` is `np.sqrt`. -/
def updateParam (update : String) (momentum learning_rate : ℚ) (sq : ℚ → ℚ)
    (cache : Cache) (p : String) (g : Arr) : Except TrainError (Arr × Cache) :=
  if update = "sgd" then
    .ok (g.map (fun gi => -learning_rate * gi), cache)
  else if update = "momentum" then
    let c0 := (dlookup cache p).getD (g.map (fun _ => 0))
    let dx := List.zipWith (fun ci gi => momentum * ci - learning_rate * gi) c0 g
    .ok (dx, setCache cache p dx)
  else if update = "rmsprop" then
    let decay_rate : ℚ := 99/100
    let c0 := (dlookup cache p).getD (g.map (fun _ => 0))
    let c1 := List.zipWith (fun ci gi => ci * decay_rate + (1 - decay_rate) * gi ^ 2) c0 g
    let dx := List.zipWith (fun gi ci => -(learning_rate * gi) / sq (ci + 1/100000000)) g c1
    .ok (dx, setCache cache p c1)
  else
    .error (.unsupportedUpdateRule update)

/-- Lines 340-359: `for p in model:` compute `dx`, then `model[p] += dx`.
A raised exception stops the loop: parameters already visited keep their
updated values, the remaining ones are untouched, and the error is reported.
Returns the (partially) updated model, the final cache and the error. -/
def stepParams (update : String) (momentum learning_rate : ℚ) (sq : ℚ → ℚ)
    (grads : String → Arr) : Model → Cache → Model × Cache × Option TrainError
  | [], cache => ([], cache, none)
  | (p, w) :: rest, cache =>
    match updateParam update momentum learning_rate sq cache p (grads p) with
    | .error e => ((p, w) :: rest, cache, some e)
    | .ok (dx, cache1) =>
      let r := stepParams update momentum learning_rate sq grads rest cache1
      ((p, addVec w dx) :: r.1, r.2.1, r.2.2)

/-- Lines 320-368 (one iteration, training part): sample a batch of
`batch_size` indices from `train_inds` (or take the full training set),
optionally compute the augmented batch, evaluate cost and gradients on the
raw batch, append the cost to the loss history, and apply the per-parameter
updates.  Note line 333: the augmented batch `X_batch` is computed but the
loss call of line 336 uses `X[batch_mask]`, so the augmented value is bound
and then never used. -/
def trainPhase (env : TrainEnv) (cfg : TrainConfig) (N : Nat) (s : TrainState) : TrainState :=
  let batch_mask :=
    if cfg.sample_batches then pickInds env.train_inds (env.rand s.rngCalls N cfg.batch_size)
    else env.train_inds
  let s1 := if cfg.sample_batches then { s with rngCalls := s.rngCalls + 1 } else s
  let _X_batch := cfg.augment_fn.map (fun f => f (batch_mask.map env.X))
  let cg := env.lossGrad (batch_mask.map env.X) s1.model (batch_mask.map env.y) cfg.reg cfg.dropout
  let s2 := { s1 with loss_history := s1.loss_history ++ [cg.1] }
  let r := stepParams cfg.update cfg.momentum s2.learning_rate env.sqrtFn cg.2 s2.model s2.cache
  { s2 with model := r.1, cache := r.2.1, err := r.2.2 }

/-- Lines 381-384: the evaluation training subset; when `N > 1000` it is a
random 1000-element subsample of `train_inds` (drawn by rng call `rc`),
else all of `train_inds`. -/
def trainMaskAt (env : TrainEnv) (N rc : Nat) : List Nat :=
  if 1000 < N then pickInds env.train_inds (env.rand rc N 1000) else env.train_inds

/-- Lines 388-398 resp. 420-430: batched forward pass over the index vector
`inds`.  With `sample_batches` the predictions are written slice by slice
into a vector of size `inds.length` (exact division is asserted by the
caller), which is their concatenation; otherwise one full forward pass. -/
def predsFor (env : TrainEnv) (cfg : TrainConfig) (inds : List Nat) (m : Model) : Arr :=
  if cfg.sample_batches then
    (List.range (inds.length / cfg.batch_size)).flatMap
      (fun b => env.predictOnly ((batchSlice inds cfg.batch_size b).map env.X) m)
  else env.predictOnly (inds.map env.X) m

/-- Line 433: the validation Pearson correlation of the current model. -/
def valAccOf (env : TrainEnv) (cfg : TrainConfig) (m : Model) : Option ℚ :=
  env.pearson (predsFor env cfg env.val_inds m) (env.val_inds.map env.y)

/-- Line 400: the training-subset Pearson correlation of the current model. -/
def trainAccOf (env : TrainEnv) (cfg : TrainConfig) (train_mask : List Nat) (m : Model) : Option ℚ :=
  env.pearson (predsFor env cfg train_mask m) (train_mask.map env.y)

/-- Lines 440-446: update the best model on strict improvement of the
validation correlation.  A NaN correlation (`none`) compares false. -/
def bestUpdate (val_acc : Option ℚ) (s : TrainState) : TrainState :=
  match val_acc with
  | some v =>
    if s.best_val_acc < v then
      { s with best_val_acc := v, best_model := copyModel s.model }
    else s
  | none => s

/-- Lines 375-378: on an epoch boundary after the first iteration, decay the
learning rate and advance the epoch counter. -/
def decayStep (cfg : TrainConfig) (it : Nat) (epoch_end : Bool) (s : TrainState) : TrainState :=
  if decide (0 < it) && epoch_end then
    { s with learning_rate := s.learning_rate * cfg.learning_rate_decay, epoch := s.epoch + 1 }
  else s

/-- Line 372: `epoch_end = (it + 1) % iterations_per_epoch == 0`. -/
def epochEnd (ipe it : Nat) : Bool := (it + 1) % ipe == 0

/-- Lines 371-374: `first_it or epoch_end or acc_check`. -/
def evalTrigger (cfg : TrainConfig) (ipe it : Nat) : Bool :=
  (it == 0) || epochEnd ipe it ||
    (match cfg.acc_frequency with
      | some f => it % f == 0
      | none => false)

/-- Lines 419-450: validation side of an evaluation: assert divisibility of
the validation size (AssertionError otherwise), record the validation
correlation, update the best model on strict improvement, and read
`model['W1']`, `model['W2']` for the weight-norm diagnostic (KeyError when
absent). -/
def evalTail (env : TrainEnv) (cfg : TrainConfig) (s : TrainState) : TrainState :=
  if cfg.sample_batches && !(env.val_inds.length % cfg.batch_size == 0) then
    { s with err := some .configError }
  else
    let val_acc := valAccOf env cfg s.model
    let s := { s with val_acc_history := s.val_acc_history ++ [val_acc] }
    let s := bestUpdate val_acc s
    if (dlookup s.model "W1").isNone || (dlookup s.model "W2").isNone then
      { s with err := some .keyError }
    else s

/-- Lines 375-450: the body executed on a triggered evaluation: decay, draw
the training subset, assert divisibility of its size, record the training
correlation, then the validation side (`evalTail`). -/
def evalBody (env : TrainEnv) (cfg : TrainConfig) (ipe N it : Nat) (s : TrainState) : TrainState :=
  let s := decayStep cfg it (epochEnd ipe it) s
  let train_mask := trainMaskAt env N s.rngCalls
  let s := if 1000 < N then { s with rngCalls := s.rngCalls + 1 } else s
  if cfg.sample_batches && !(train_mask.length % cfg.batch_size == 0) then
    { s with err := some .configError }
  else
    evalTail env cfg { s with
      train_acc_history := s.train_acc_history ++ [trainAccOf env cfg train_mask s.model] }

/-- Lines 370-456 (one iteration, evaluation part): the evaluation body runs
when the iteration is the first one, an epoch end, or an `acc_frequency`
hit, and is skipped entirely when an exception was already raised earlier in
the iteration. -/
def evalPhase (env : TrainEnv) (cfg : TrainConfig) (ipe N it : Nat) (s : TrainState) : TrainState :=
  if s.err.isSome then s else
  if evalTrigger cfg ipe it then evalBody env cfg ipe N it s
  else s

/-- One iteration of the main loop (lines 320-456): the training part then the
evaluation part; a previously raised exception short-circuits both. -/
def iterBody (env : TrainEnv) (cfg : TrainConfig) (ipe N it : Nat) (s : TrainState) : TrainState :=
  if s.err.isSome then s
  else evalPhase env cfg ipe N it (trainPhase env cfg N s)

/-- Line 286-288: `iterations_per_epoch`. -/
def iterationsPerEpoch (env : TrainEnv) (cfg : TrainConfig) : Nat :=
  if cfg.sample_batches then env.train_inds.length / cfg.batch_size else 1

/-- Line 289: `num_iters = num_epochs * iterations_per_epoch`. -/
def numIters (env : TrainEnv) (cfg : TrainConfig) : Nat :=
  cfg.num_epochs * iterationsPerEpoch env cfg

/-- Lines 320-456: the main loop, `for it in xrange(num_iters)`. -/
def trainMemmapLoop (env : TrainEnv) (cfg : TrainConfig) (s0 : TrainState) : TrainState :=
  (List.range (numIters env cfg)).foldl
    (fun s it => iterBody env cfg (iterationsPerEpoch env cfg) env.train_inds.length it s) s0

/-- The trainer object; its only state is `self.step_cache` (line 11). -/
structure ClassifierTrainer where
  step_cache : Cache

/-- `ClassifierTrainer.__init__`: `self.step_cache = {}`. -/
def ClassifierTrainer.new : ClassifierTrainer := ⟨[]⟩

/-- Lines 283-313: the locals at loop entry.  `N = y[train_inds].shape[0]`,
`epoch = 0`, `best_val_acc = 0.0`, `best_model = {}`, empty histories; the
step cache is whatever `self.step_cache` currently holds. -/
def initState (t : ClassifierTrainer) (cfg : TrainConfig) (model : Model) : TrainState :=
  { model := model
    cache := t.step_cache
    learning_rate := cfg.learning_rate
    epoch := 0
    best_val_acc := 0
    best_model := []
    loss_history := []
    train_acc_history := []
    val_acc_history := []
    rngCalls := 0
    err := none }

/-- `ClassifierTrainer.train_memmap`: run the loop from a fresh local state
and the instance's step cache.  The returned `TrainState` carries the return
tuple `(best_model, loss_history, train_acc_history, val_acc_history)`, the
in-place mutated `model`, and the exception if one was raised; the returned
trainer is `self` afterwards, holding the final `self.step_cache`. -/
def ClassifierTrainer.train_memmap (t : ClassifierTrainer) (env : TrainEnv)
    (cfg : TrainConfig) (model : Model) : TrainState × ClassifierTrainer :=
  let s := trainMemmapLoop env cfg (initState t cfg model)
  (s, ⟨s.cache⟩)

end DeepRetina

namespace DeepRetina

/-! ### Basic lemmas about the embedded operations -/

lemma copyModel_eq (m : Model) : copyModel m = m := by
  simp [copyModel]

lemma updateParam_sgd (momentum learning_rate : ℚ) (sq : ℚ → ℚ) (cache : Cache)
    (p : String) (g : Arr) :
    updateParam "sgd" momentum learning_rate sq cache p g
      = .ok (g.map (fun gi => -learning_rate * gi), cache) := by
  simp [updateParam]

lemma updateParam_momentum (momentum learning_rate : ℚ) (sq : ℚ → ℚ) (cache : Cache)
    (p : String) (g : Arr) :
    updateParam "momentum" momentum learning_rate sq cache p g
      = .ok
          (List.zipWith (fun ci gi => momentum * ci - learning_rate * gi)
            ((dlookup cache p).getD (g.map (fun _ => 0))) g,
           setCache cache p
            (List.zipWith (fun ci gi => momentum * ci - learning_rate * gi)
              ((dlookup cache p).getD (g.map (fun _ => 0))) g)) := by
  simp [updateParam]

lemma updateParam_rmsprop (momentum learning_rate : ℚ) (sq : ℚ → ℚ) (cache : Cache)
    (p : String) (g : Arr) :
    updateParam "rmsprop" momentum learning_rate sq cache p g
      = (let c1 := List.zipWith (fun ci gi => ci * (99/100) + (1 - 99/100) * gi ^ 2)
            ((dlookup cache p).getD (g.map (fun _ => 0))) g
         .ok (List.zipWith (fun gi ci => -(learning_rate * gi) / sq (ci + 1/100000000)) g c1,
              setCache cache p c1)) := by
  simp [updateParam]

lemma updateParam_unknown (update : String) (momentum learning_rate : ℚ) (sq : ℚ → ℚ)
    (cache : Cache) (p : String) (g : Arr)
    (h1 : update ≠ "sgd") (h2 : update ≠ "momentum") (h3 : update ≠ "rmsprop") :
    updateParam update momentum learning_rate sq cache p g
      = .error (.unsupportedUpdateRule update) := by
  simp [updateParam, h1, h2, h3]

lemma dlookup_cons (k : String) (w : Arr) (tl : Cache) (p : String) :
    dlookup ((k, w) :: tl) p = if k = p then some w else dlookup tl p := rfl

lemma dlookup_cons_ite (c : Prop) [Decidable c] (a b : String × Arr) (tl : Cache) (q : String) :
    dlookup ((if c then a else b) :: tl) q
      = if c then dlookup (a :: tl) q else dlookup (b :: tl) q := by
  split <;> rfl

lemma dlookup_map_replace (p q : String) (v : Arr) (c : Cache) :
    dlookup (c.map (fun e => if e.1 = p then (e.1, v) else e)) q
      = if q = p then (if (dlookup c p).isSome then some v else none) else dlookup c q := by
  induction c with
  | nil => simp [dlookup]
  | cons e tl ih =>
    obtain ⟨k, w⟩ := e
    rw [List.map_cons]
    dsimp only
    rw [dlookup_cons_ite]
    by_cases hkp : k = p
    · rw [if_pos hkp]
      subst hkp
      by_cases hqk : q = k
      · subst hqk
        simp [dlookup]
      · have hkq : ¬(k = q) := fun h => hqk h.symm
        simp [dlookup, hkq, hqk, ih]
    · rw [if_neg hkp]
      by_cases hqk : q = k
      · subst hqk
        simp [dlookup, hkp]
      · have hkq : ¬(k = q) := fun h => hqk h.symm
        simp [dlookup, hkp, hkq, hqk, ih]

lemma dlookup_append_single (c : Cache) (p q : String) (v : Arr) :
    dlookup (c ++ [(p, v)]) q
      = if (dlookup c q).isSome then dlookup c q
        else if p = q then some v else none := by
  induction c with
  | nil => simp [dlookup]
  | cons e tl ih =>
    obtain ⟨k, w⟩ := e
    by_cases hkq : k = q
    · simp [dlookup, hkq]
    · simp [dlookup, hkq, ih]

lemma dlookup_setCache (c : Cache) (p q : String) (v : Arr) :
    dlookup (setCache c p v) q = if q = p then some v else dlookup c q := by
  unfold setCache
  by_cases hs : (dlookup c p).isSome
  · rw [if_pos hs, dlookup_map_replace]
    by_cases hqp : q = p
    · simp [hqp, hs]
    · simp [hqp]
  · rw [if_neg hs, dlookup_append_single]
    by_cases hqp : q = p
    · subst hqp
      have hnone : dlookup c q = none := Option.not_isSome_iff_eq_none.mp hs
      simp [hnone]
    · have hpq : ¬(p = q) := fun h => hqp h.symm
      cases h : dlookup c q with
      | none => simp [h, hqp, hpq]
      | some w => simp [h, hqp]

/-! ### State-preservation lemmas for the phases of one iteration -/

lemma bestUpdate_none (s : TrainState) : bestUpdate none s = s := rfl

lemma bestUpdate_some (x : ℚ) (s : TrainState) :
    bestUpdate (some x) s
      = if s.best_val_acc < x then
          { s with best_val_acc := x, best_model := copyModel s.model }
        else s := rfl

lemma bestUpdate_model (v : Option ℚ) (s : TrainState) : (bestUpdate v s).model = s.model := by
  cases v with
  | none => rfl
  | some x => rw [bestUpdate_some]; split <;> rfl

lemma bestUpdate_err (v : Option ℚ) (s : TrainState) : (bestUpdate v s).err = s.err := by
  cases v with
  | none => rfl
  | some x => rw [bestUpdate_some]; split <;> rfl

lemma bestUpdate_loss_history (v : Option ℚ) (s : TrainState) :
    (bestUpdate v s).loss_history = s.loss_history := by
  cases v with
  | none => rfl
  | some x => rw [bestUpdate_some]; split <;> rfl

lemma bestUpdate_cache (v : Option ℚ) (s : TrainState) : (bestUpdate v s).cache = s.cache := by
  cases v with
  | none => rfl
  | some x => rw [bestUpdate_some]; split <;> rfl

lemma bestUpdate_le (v : Option ℚ) (s : TrainState) :
    s.best_val_acc ≤ (bestUpdate v s).best_val_acc := by
  cases v with
  | none => exact le_refl _
  | some x =>
    rw [bestUpdate_some]
    split
    · next h => exact le_of_lt h
    · exact le_refl _

lemma bestUpdate_best_spec (v : Option ℚ) (s : TrainState) :
    ((bestUpdate v s).best_val_acc = s.best_val_acc ∧
     (bestUpdate v s).best_model = s.best_model) ∨
    (∃ x, v = some x ∧ s.best_val_acc < x ∧
     (bestUpdate v s).best_val_acc = x ∧ (bestUpdate v s).best_model = s.model) := by
  cases v with
  | none => left; exact ⟨rfl, rfl⟩
  | some x =>
    by_cases h : s.best_val_acc < x
    · right
      exact ⟨x, rfl, h, by simp [bestUpdate_some, h], by simp [bestUpdate_some, h, copyModel_eq]⟩
    · left
      constructor <;> simp [bestUpdate_some, h]

lemma decayStep_model (cfg : TrainConfig) (it : Nat) (e : Bool) (s : TrainState) :
    (decayStep cfg it e s).model = s.model := by
  unfold decayStep; split <;> rfl

lemma decayStep_cache (cfg : TrainConfig) (it : Nat) (e : Bool) (s : TrainState) :
    (decayStep cfg it e s).cache = s.cache := by
  unfold decayStep; split <;> rfl

lemma decayStep_err (cfg : TrainConfig) (it : Nat) (e : Bool) (s : TrainState) :
    (decayStep cfg it e s).err = s.err := by
  unfold decayStep; split <;> rfl

lemma decayStep_best_val_acc (cfg : TrainConfig) (it : Nat) (e : Bool) (s : TrainState) :
    (decayStep cfg it e s).best_val_acc = s.best_val_acc := by
  unfold decayStep; split <;> rfl

lemma decayStep_best_model (cfg : TrainConfig) (it : Nat) (e : Bool) (s : TrainState) :
    (decayStep cfg it e s).best_model = s.best_model := by
  unfold decayStep; split <;> rfl

lemma decayStep_loss_history (cfg : TrainConfig) (it : Nat) (e : Bool) (s : TrainState) :
    (decayStep cfg it e s).loss_history = s.loss_history := by
  unfold decayStep; split <;> rfl

lemma decayStep_train_acc_history (cfg : TrainConfig) (it : Nat) (e : Bool) (s : TrainState) :
    (decayStep cfg it e s).train_acc_history = s.train_acc_history := by
  unfold decayStep; split <;> rfl

lemma decayStep_val_acc_history (cfg : TrainConfig) (it : Nat) (e : Bool) (s : TrainState) :
    (decayStep cfg it e s).val_acc_history = s.val_acc_history := by
  unfold decayStep; split <;> rfl

lemma decayStep_rngCalls (cfg : TrainConfig) (it : Nat) (e : Bool) (s : TrainState) :
    (decayStep cfg it e s).rngCalls = s.rngCalls := by
  unfold decayStep; split <;> rfl

lemma decayStep_zero (cfg : TrainConfig) (e : Bool) (s : TrainState) :
    decayStep cfg 0 e s = s := by
  unfold decayStep; simp

lemma trainPhase_best_model (env : TrainEnv) (cfg : TrainConfig) (N : Nat) (s : TrainState) :
    (trainPhase env cfg N s).best_model = s.best_model := by
  cases hc : cfg.sample_batches <;> simp [trainPhase, hc]

lemma trainPhase_best_val_acc (env : TrainEnv) (cfg : TrainConfig) (N : Nat) (s : TrainState) :
    (trainPhase env cfg N s).best_val_acc = s.best_val_acc := by
  cases hc : cfg.sample_batches <;> simp [trainPhase, hc]

lemma trainPhase_train_acc_history (env : TrainEnv) (cfg : TrainConfig) (N : Nat) (s : TrainState) :
    (trainPhase env cfg N s).train_acc_history = s.train_acc_history := by
  cases hc : cfg.sample_batches <;> simp [trainPhase, hc]

lemma trainPhase_val_acc_history (env : TrainEnv) (cfg : TrainConfig) (N : Nat) (s : TrainState) :
    (trainPhase env cfg N s).val_acc_history = s.val_acc_history := by
  cases hc : cfg.sample_batches <;> simp [trainPhase, hc]

lemma trainPhase_loss_length (env : TrainEnv) (cfg : TrainConfig) (N : Nat) (s : TrainState) :
    (trainPhase env cfg N s).loss_history.length = s.loss_history.length + 1 := by
  cases hc : cfg.sample_batches <;> simp [trainPhase, hc]

lemma trainPhase_rngCalls (env : TrainEnv) (cfg : TrainConfig) (N : Nat) (s : TrainState) :
    (trainPhase env cfg N s).rngCalls
      = if cfg.sample_batches then s.rngCalls + 1 else s.rngCalls := by
  cases hc : cfg.sample_batches <;> simp [trainPhase, hc]

lemma stepParams_err_none (update : String) (momentum learning_rate : ℚ) (sq : ℚ → ℚ)
    (grads : String → Arr)
    (h : update = "sgd" ∨ update = "momentum" ∨ update = "rmsprop") :
    ∀ (model : Model) (cache : Cache),
      (stepParams update momentum learning_rate sq grads model cache).2.2 = none := by
  intro model
  induction model with
  | nil => intro cache; simp [stepParams]
  | cons e rest ih =>
    intro cache
    obtain ⟨p, w⟩ := e
    rcases h with h | h | h <;> subst h <;>
      simp [stepParams, updateParam_sgd, updateParam_momentum, updateParam_rmsprop, ih]

lemma stepParams_unknown (update : String) (momentum learning_rate : ℚ) (sq : ℚ → ℚ)
    (grads : String → Arr)
    (h1 : update ≠ "sgd") (h2 : update ≠ "momentum") (h3 : update ≠ "rmsprop")
    (p : String) (w : Arr) (rest : Model) (cache : Cache) :
    stepParams update momentum learning_rate sq grads ((p, w) :: rest) cache
      = ((p, w) :: rest, cache, some (.unsupportedUpdateRule update)) := by
  simp [stepParams, updateParam_unknown update momentum learning_rate sq cache p (grads p) h1 h2 h3]

lemma trainPhase_err_none (env : TrainEnv) (cfg : TrainConfig) (N : Nat) (s : TrainState)
    (h : cfg.update = "sgd" ∨ cfg.update = "momentum" ∨ cfg.update = "rmsprop") :
    (trainPhase env cfg N s).err = none := by
  cases hc : cfg.sample_batches <;>
    simp [trainPhase, hc, stepParams_err_none cfg.update cfg.momentum s.learning_rate
      env.sqrtFn _ h]

lemma iterBody_err_absorb (env : TrainEnv) (cfg : TrainConfig) (ipe N it : Nat)
    (s : TrainState) (h : s.err.isSome = true) :
    iterBody env cfg ipe N it s = s := by
  simp [iterBody, h]

lemma foldl_iterBody_err (env : TrainEnv) (cfg : TrainConfig) (ipe N : Nat) :
    ∀ (l : List Nat) (s : TrainState), s.err.isSome = true →
      l.foldl (fun s it => iterBody env cfg ipe N it s) s = s := by
  intro l
  induction l with
  | nil => intro s _; rfl
  | cons a tl ih =>
    intro s h
    rw [List.foldl_cons, iterBody_err_absorb env cfg ipe N a s h]
    exact ih s h

lemma evalTail_best_spec (env : TrainEnv) (cfg : TrainConfig) (s : TrainState) :
    ((evalTail env cfg s).best_val_acc = s.best_val_acc ∧
     (evalTail env cfg s).best_model = s.best_model) ∨
    (∃ v, valAccOf env cfg s.model = some v ∧ s.best_val_acc < v ∧
     (evalTail env cfg s).best_val_acc = v ∧ (evalTail env cfg s).best_model = s.model) := by
  unfold evalTail
  split
  · left; exact ⟨rfl, rfl⟩
  · dsimp only
    rcases bestUpdate_best_spec (valAccOf env cfg s.model)
        { s with val_acc_history := s.val_acc_history ++ [valAccOf env cfg s.model] } with
      ⟨h1, h2⟩ | ⟨x, hx, hlt, h1, h2⟩
    · left
      refine ⟨?_, ?_⟩ <;> split <;> simp_all
    · right
      refine ⟨x, hx, by simpa using hlt, ?_, ?_⟩ <;> split <;> simp_all

lemma evalBody_best_spec (env : TrainEnv) (cfg : TrainConfig) (ipe N it : Nat) (s : TrainState) :
    ((evalBody env cfg ipe N it s).best_val_acc = s.best_val_acc ∧
     (evalBody env cfg ipe N it s).best_model = s.best_model) ∨
    (∃ v, valAccOf env cfg s.model = some v ∧ s.best_val_acc < v ∧
     (evalBody env cfg ipe N it s).best_val_acc = v ∧
     (evalBody env cfg ipe N it s).best_model = s.model) := by
  have key : ∀ s' : TrainState, s'.best_val_acc = s.best_val_acc →
      s'.best_model = s.best_model → s'.model = s.model →
      ((evalTail env cfg s').best_val_acc = s.best_val_acc ∧
       (evalTail env cfg s').best_model = s.best_model) ∨
      (∃ v, valAccOf env cfg s.model = some v ∧ s.best_val_acc < v ∧
       (evalTail env cfg s').best_val_acc = v ∧
       (evalTail env cfg s').best_model = s.model) := by
    intro s' h1 h2 hm
    rcases evalTail_best_spec env cfg s' with ⟨a, b⟩ | ⟨v, hv, hlt, ha, hb⟩
    · left; rw [a, b, h1, h2]; exact ⟨rfl, rfl⟩
    · right
      refine ⟨v, ?_, ?_, ha, ?_⟩
      · rw [hm] at hv; exact hv
      · rw [h1] at hlt; exact hlt
      · rw [hb, hm]
  simp only [evalBody]
  split
  · left
    constructor <;>
      simp [apply_ite TrainState.best_val_acc, apply_ite TrainState.best_model,
        decayStep_best_val_acc, decayStep_best_model]
  · apply key <;>
      simp [apply_ite TrainState.best_val_acc, apply_ite TrainState.best_model,
        apply_ite TrainState.model, decayStep_best_val_acc, decayStep_best_model,
        decayStep_model]

lemma evalPhase_best_spec (env : TrainEnv) (cfg : TrainConfig) (ipe N it : Nat) (s : TrainState) :
    ((evalPhase env cfg ipe N it s).best_val_acc = s.best_val_acc ∧
     (evalPhase env cfg ipe N it s).best_model = s.best_model) ∨
    (∃ v, valAccOf env cfg s.model = some v ∧ s.best_val_acc < v ∧
     (evalPhase env cfg ipe N it s).best_val_acc = v ∧
     (evalPhase env cfg ipe N it s).best_model = s.model) := by
  unfold evalPhase
  split
  · left; exact ⟨rfl, rfl⟩
  · split
    · exact evalBody_best_spec env cfg ipe N it s
    · left; exact ⟨rfl, rfl⟩

lemma iterBody_best_le (env : TrainEnv) (cfg : TrainConfig) (ipe N it : Nat) (s : TrainState) :
    s.best_val_acc ≤ (iterBody env cfg ipe N it s).best_val_acc := by
  unfold iterBody
  split
  · exact le_refl _
  · rcases evalPhase_best_spec env cfg ipe N it (trainPhase env cfg N s) with
      ⟨h1, _⟩ | ⟨v, _, hlt, h1, _⟩
    · rw [h1, trainPhase_best_val_acc]
    · rw [h1]
      calc s.best_val_acc = (trainPhase env cfg N s).best_val_acc :=
            (trainPhase_best_val_acc env cfg N s).symm
        _ ≤ v := le_of_lt hlt

lemma foldl_iterBody_best_le (env : TrainEnv) (cfg : TrainConfig) (ipe N : Nat) :
    ∀ (l : List Nat) (s : TrainState),
      s.best_val_acc ≤ (l.foldl (fun s it => iterBody env cfg ipe N it s) s).best_val_acc := by
  intro l
  induction l with
  | nil => intro s; exact le_refl _
  | cons a tl ih =>
    intro s
    rw [List.foldl_cons]
    exact le_trans (iterBody_best_le env cfg ipe N a s) (ih _)

/-- C5: within a single run of `train_memmap`, `best_val_acc` is monotonically
non-decreasing: it never decreases across any iteration (hence across any
evaluation event) of the main loop, nor across a whole run, and the
best-tracking step changes it only when the computed validation correlation
strictly exceeds it, in which case it is set to exactly that larger value
(a NaN correlation never changes it). -/
theorem C5_best_val_acc_monotone :
    (∀ (env : TrainEnv) (cfg : TrainConfig) (ipe N it : Nat) (s : TrainState),
       s.best_val_acc ≤ (iterBody env cfg ipe N it s).best_val_acc) ∧
    (∀ (env : TrainEnv) (cfg : TrainConfig) (s0 : TrainState),
       s0.best_val_acc ≤ (trainMemmapLoop env cfg s0).best_val_acc) ∧
    (∀ (v : Option ℚ) (s : TrainState),
       (bestUpdate v s).best_val_acc = s.best_val_acc ∨
       ∃ x, v = some x ∧ s.best_val_acc < x ∧ (bestUpdate v s).best_val_acc = x) := by
  refine ⟨iterBody_best_le, ?_, ?_⟩
  · intro env cfg s0
    exact foldl_iterBody_best_le env cfg _ _ _ s0
  · intro v s
    cases v with
    | none => left; rfl
    | some x =>
      by_cases h : s.best_val_acc < x
      · right; exact ⟨x, rfl, h, by simp [bestUpdate_some, h]⟩
      · left; simp [bestUpdate_some, h]

/-- C6: a `BestModel` snapshot is a by-value copy of `model`.  The
parameter-update phase of an iteration (the only place where `model`'s
arrays are mutated in place) never changes `best_model`; an iteration either
leaves `best_model` untouched or sets it to the value `model` holds after
that iteration's update phase; and the snapshot copy (`model[p].copy()` for
every `p`) equals the model value itself, so later in-place mutation of
`model` can never reach into a previously captured snapshot. -/
theorem C6_best_model_deep_copy :
    (∀ (env : TrainEnv) (cfg : TrainConfig) (N : Nat) (s : TrainState),
       (trainPhase env cfg N s).best_model = s.best_model) ∧
    (∀ m : Model, copyModel m = m) ∧
    (∀ (env : TrainEnv) (cfg : TrainConfig) (ipe N it : Nat) (s : TrainState),
       (iterBody env cfg ipe N it s).best_model = s.best_model ∨
       (iterBody env cfg ipe N it s).best_model = (trainPhase env cfg N s).model) := by
  refine ⟨trainPhase_best_model, copyModel_eq, ?_⟩
  intro env cfg ipe N it s
  unfold iterBody
  split
  · left; rfl
  · rcases evalPhase_best_spec env cfg ipe N it (trainPhase env cfg N s) with
      ⟨_, h2⟩ | ⟨v, _, _, _, h2⟩
    · left; rw [h2, trainPhase_best_model]
    · right; exact h2

lemma iterBody_best_empty (env : TrainEnv) (cfg : TrainConfig) (ipe N it : Nat) (s : TrainState)
    (hp : ∀ a b v, env.pearson a b = some v → v ≤ 0)
    (h1 : s.best_model = []) (h2 : s.best_val_acc = 0) :
    (iterBody env cfg ipe N it s).best_model = [] ∧
    (iterBody env cfg ipe N it s).best_val_acc = 0 := by
  unfold iterBody
  split
  · exact ⟨h1, h2⟩
  · rcases evalPhase_best_spec env cfg ipe N it (trainPhase env cfg N s) with
      ⟨ha, hb⟩ | ⟨v, hv, hlt, _, _⟩
    · rw [hb, ha, trainPhase_best_model, trainPhase_best_val_acc]
      exact ⟨h1, h2⟩
    · exfalso
      unfold valAccOf at hv
      have hv' := hp _ _ _ hv
      rw [trainPhase_best_val_acc, h2] at hlt
      exact absurd (lt_of_lt_of_le hlt hv') (lt_irrefl 0)

lemma foldl_iterBody_best_empty (env : TrainEnv) (cfg : TrainConfig) (ipe N : Nat)
    (hp : ∀ a b v, env.pearson a b = some v → v ≤ 0) :
    ∀ (l : List Nat) (s : TrainState), s.best_model = [] → s.best_val_acc = 0 →
      (l.foldl (fun s it => iterBody env cfg ipe N it s) s).best_model = [] ∧
      (l.foldl (fun s it => iterBody env cfg ipe N it s) s).best_val_acc = 0 := by
  intro l
  induction l with
  | nil => intro s h1 h2; exact ⟨h1, h2⟩
  | cons a tl ih =>
    intro s h1 h2
    rw [List.foldl_cons]
    obtain ⟨h1', h2'⟩ := iterBody_best_empty env cfg ipe N a s hp h1 h2
    exact ih _ h1' h2'

/-- C9: whenever a run of `train_memmap` never observes a validation Pearson
correlation strictly greater than 0 — in particular when every correlation
is NaN or non-positive, or when `num_iters = 0` so the loop body never
executes — the returned `best_model` is the empty dict (and `best_val_acc`
stays 0), not a snapshot of the trained parameters. -/
theorem C9_no_improvement_empty_best_model
    (t : ClassifierTrainer) (env : TrainEnv) (cfg : TrainConfig) (m : Model)
    (h : numIters env cfg = 0 ∨ (∀ a b v, env.pearson a b = some v → v ≤ 0)) :
    (t.train_memmap env cfg m).1.best_model = [] ∧
    (t.train_memmap env cfg m).1.best_val_acc = 0 := by
  rcases h with h | hp
  · unfold ClassifierTrainer.train_memmap trainMemmapLoop
    rw [h]
    exact ⟨rfl, rfl⟩
  · unfold ClassifierTrainer.train_memmap trainMemmapLoop
    exact foldl_iterBody_best_empty env cfg _ _ hp _ (initState t cfg m) rfl rfl

/-! ### The rmsprop update rule -/

lemma updateParam_rms_single (momentum learning_rate : ℚ) (sq : ℚ → ℚ) (p : String) (c g : ℚ) :
    updateParam "rmsprop" momentum learning_rate sq [(p, [c])] p [g]
      = .ok ([-(learning_rate * g) / sq (c * (99/100) + (1/100) * g ^ 2 + 1/100000000)],
             [(p, [c * (99/100) + (1/100) * g ^ 2])]) := by
  rw [updateParam_rmsprop]
  simp [dlookup, setCache]
  norm_num

/-- Iterating the `rmsprop` branch of the update (lines 349-354) on one
single-cell parameter `p` along a fixed gradient sequence, keeping the
evolving step cache. -/
def rmspropCacheRun (learning_rate : ℚ) (sq : ℚ → ℚ) (p : String) (cache : Cache)
    (gs : List ℚ) : Cache :=
  gs.foldl (fun c g =>
    match updateParam "rmsprop" 0 learning_rate sq c p [g] with
    | .ok x => x.2
    | .error _ => c) cache

lemma rmspropCacheRun_singleton (learning_rate : ℚ) (sq : ℚ → ℚ) (p : String) :
    ∀ (gs : List ℚ) (c : ℚ),
      rmspropCacheRun learning_rate sq p [(p, [c])] gs
        = [(p, [(99/100) ^ gs.length * c
              + ∑ k ∈ Finset.range gs.length,
                  (1/100) * (99/100) ^ (gs.length - 1 - k) * gs.getD k 0 ^ 2])] := by
  intro gs
  induction gs with
  | nil => intro c; simp [rmspropCacheRun]
  | cons g gt ih =>
    intro c
    have step : rmspropCacheRun learning_rate sq p [(p, [c])] (g :: gt)
        = rmspropCacheRun learning_rate sq p [(p, [c * (99/100) + (1/100) * g ^ 2])] gt := by
      unfold rmspropCacheRun
      rw [List.foldl_cons, updateParam_rms_single]
    rw [step, ih]
    congr 3
    rw [List.length_cons, Finset.sum_range_succ']
    have hre : ∀ k ∈ Finset.range gt.length,
        (1/100 : ℚ) * (99/100) ^ (gt.length + 1 - 1 - (k + 1)) * (g :: gt).getD (k + 1) 0 ^ 2
          = (1/100) * (99/100) ^ (gt.length - 1 - k) * gt.getD k 0 ^ 2 := by
      intro k _
      have he : gt.length + 1 - 1 - (k + 1) = gt.length - 1 - k := by omega
      rw [he, List.getD_cons_succ]
    rw [Finset.sum_congr rfl hre]
    have he0 : gt.length + 1 - 1 - 0 = gt.length := by omega
    rw [he0, List.getD_cons_zero]
    ring

/-- C7: the `rmsprop` branch (lines 349-354, `decay_rate` fixed at 0.99,
`1e-8` as the stabilizer): on a parameter with cached accumulator `c` and
gradient `g`, the cache entry is replaced by `0.99*c + (1-0.99)*g²`
elementwise, the step is `dx = -(lr*g)/sqrt(cache + 1e-8)` computed with the
already-updated cache, and `model[p] += dx` in place; iterating from an
empty cache (lazily zero-initialized on first use) along a fixed gradient
sequence yields the closed-form accumulator
`cache_N = ∑ (1/100)·(99/100)^(N-1-k)·g_k²`. -/
theorem C7_rmsprop_update :
    (∀ (momentum learning_rate : ℚ) (sq : ℚ → ℚ) (p : String) (c g : ℚ),
       updateParam "rmsprop" momentum learning_rate sq [(p, [c])] p [g]
         = .ok ([-(learning_rate * g) / sq (c * (99/100) + (1/100) * g ^ 2 + 1/100000000)],
                [(p, [c * (99/100) + (1/100) * g ^ 2])])) ∧
    (∀ (momentum learning_rate : ℚ) (sq : ℚ → ℚ) (p : String) (w c g : ℚ),
       stepParams "rmsprop" momentum learning_rate sq (fun _ => [g]) [(p, [w])] [(p, [c])]
         = ([(p, [w + -(learning_rate * g) /
                sq (c * (99/100) + (1/100) * g ^ 2 + 1/100000000)])],
            [(p, [c * (99/100) + (1/100) * g ^ 2])], none)) ∧
    (∀ (learning_rate : ℚ) (sq : ℚ → ℚ) (p : String) (gs : List ℚ),
       (dlookup (rmspropCacheRun learning_rate sq p [] gs) p).getD [0]
         = [∑ k ∈ Finset.range gs.length,
             (1/100) * (99/100) ^ (gs.length - 1 - k) * gs.getD k 0 ^ 2]) := by
  refine ⟨updateParam_rms_single, ?_, ?_⟩
  · intro momentum learning_rate sq p w c g
    simp [stepParams, updateParam_rms_single, addVec]
  · intro learning_rate sq p gs
    cases gs with
    | nil => simp [rmspropCacheRun, dlookup]
    | cons g gt =>
      have same : rmspropCacheRun learning_rate sq p [] (g :: gt)
          = rmspropCacheRun learning_rate sq p [(p, [(0 : ℚ)])] (g :: gt) := by
        unfold rmspropCacheRun
        rw [List.foldl_cons, List.foldl_cons]
        congr 1
        rw [updateParam_rmsprop, updateParam_rmsprop]
        simp [dlookup, setCache]
      rw [same, rmspropCacheRun_singleton]
      simp [dlookup]

/-! ### Momentum with coefficient zero versus plain sgd -/

lemma zipWith_momentum_zero (learning_rate : ℚ) :
    ∀ (g c : List ℚ), g.length ≤ c.length →
      List.zipWith (fun ci gi => (0 : ℚ) * ci - learning_rate * gi) c g
        = g.map (fun gi => -learning_rate * gi) := by
  intro g
  induction g with
  | nil => intro c _; simp
  | cons gh gt ih =>
    intro c hlen
    cases c with
    | nil => simp at hlen
    | cons ch ct =>
      rw [List.zipWith_cons_cons, List.map_cons]
      have hh : (0 : ℚ) * ch - learning_rate * gh = -learning_rate * gh := by ring
      rw [hh, ih ct (Nat.succ_le_succ_iff.mp (by simpa using hlen))]

lemma stepParams_sgd_cache (momentum learning_rate : ℚ) (sq : ℚ → ℚ) (grads : String → Arr) :
    ∀ (model : Model) (cache : Cache),
      (stepParams "sgd" momentum learning_rate sq grads model cache).2.1 = cache := by
  intro model
  induction model with
  | nil => intro cache; simp [stepParams]
  | cons e rest ih =>
    intro cache
    obtain ⟨p, w⟩ := e
    simp [stepParams, updateParam_sgd, ih]

lemma stepParams_sgd_cache_indep (momentum learning_rate : ℚ) (sq : ℚ → ℚ)
    (grads : String → Arr) :
    ∀ (model : Model) (cache cache' : Cache),
      (stepParams "sgd" momentum learning_rate sq grads model cache).1
        = (stepParams "sgd" momentum learning_rate sq grads model cache').1 := by
  intro model
  induction model with
  | nil => intro cache cache'; rfl
  | cons e rest ih =>
    intro cache cache'
    obtain ⟨p, w⟩ := e
    simp [stepParams, updateParam_sgd, ih cache cache']

lemma momentum_zero_dx (learning_rate : ℚ) (sq : ℚ → ℚ) (cache : Cache) (p : String) (g : Arr)
    (hc : ∀ v, dlookup cache p = some v → g.length ≤ v.length) :
    updateParam "momentum" 0 learning_rate sq cache p g
      = .ok (g.map (fun gi => -learning_rate * gi),
             setCache cache p (g.map (fun gi => -learning_rate * gi))) := by
  rw [updateParam_momentum]
  have hz : List.zipWith (fun ci gi => (0 : ℚ) * ci - learning_rate * gi)
      ((dlookup cache p).getD (g.map (fun _ => 0))) g
        = g.map (fun gi => -learning_rate * gi) := by
    cases h : dlookup cache p with
    | none => simp only [h, Option.getD_none]
              exact zipWith_momentum_zero learning_rate g _ (by simp)
    | some v => simp only [h, Option.getD_some]
                exact zipWith_momentum_zero learning_rate g v (hc v h)
  rw [hz]

lemma stepParams_momentum_zero (learning_rate : ℚ) (sq : ℚ → ℚ) (grads : String → Arr) :
    ∀ (model : Model) (cache : Cache),
      (∀ p v, dlookup cache p = some v → (grads p).length ≤ v.length) →
      (stepParams "momentum" 0 learning_rate sq grads model cache).1
        = (stepParams "sgd" 0 learning_rate sq grads model cache).1 ∧
      (∀ p v, dlookup (stepParams "momentum" 0 learning_rate sq grads model cache).2.1 p
          = some v → (grads p).length ≤ v.length) := by
  intro model
  induction model with
  | nil =>
    intro cache hc
    exact ⟨rfl, hc⟩
  | cons e rest ih =>
    intro cache hc
    obtain ⟨p, w⟩ := e
    have hdx := momentum_zero_dx learning_rate sq cache p (grads p) (fun v hv => hc p v hv)
    have hc' : ∀ q v, dlookup (setCache cache p ((grads p).map (fun gi => -learning_rate * gi))) q
        = some v → (grads q).length ≤ v.length := by
      intro q v hv
      rw [dlookup_setCache] at hv
      by_cases hqp : q = p
      · rw [if_pos hqp] at hv
        subst hqp
        cases hv
        simp
      · rw [if_neg hqp] at hv
        exact hc q v hv
    obtain ⟨ih1, ih2⟩ := ih (setCache cache p ((grads p).map (fun gi => -learning_rate * gi))) hc'
    constructor
    · simp only [stepParams, hdx, updateParam_sgd]
      rw [ih1]
      rw [stepParams_sgd_cache_indep 0 learning_rate sq grads rest
        (setCache cache p ((grads p).map (fun gi => -learning_rate * gi))) cache]
    · simp only [stepParams, hdx]
      exact ih2

/-- C10: with momentum coefficient 0, the `momentum` rule applies exactly
the same in-place parameter change as `sgd` at the same learning rate
(`dx = -learning_rate * grads[p]`), for every parameter and whatever the
current step cache holds (absent entries are zero-initialized, and present
entries — as created by earlier momentum-0 iterations — have the gradient's
shape); the resulting updated models coincide, both rules report no error,
and they differ only in the step cache: `sgd` leaves it untouched while
`momentum` stores each step in it, its entries keeping the gradient's shape
so the equivalence persists across iterations. -/
theorem C10_momentum_zero_equals_sgd
    (learning_rate : ℚ) (sq : ℚ → ℚ) (grads : String → Arr) (model : Model) (cache : Cache)
    (hc : ∀ p v, dlookup cache p = some v → (grads p).length ≤ v.length) :
    (stepParams "momentum" 0 learning_rate sq grads model cache).1
      = (stepParams "sgd" 0 learning_rate sq grads model cache).1 ∧
    (stepParams "sgd" 0 learning_rate sq grads model cache).2.1 = cache ∧
    (stepParams "momentum" 0 learning_rate sq grads model cache).2.2 = none ∧
    (stepParams "sgd" 0 learning_rate sq grads model cache).2.2 = none ∧
    (∀ p v, dlookup (stepParams "momentum" 0 learning_rate sq grads model cache).2.1 p
        = some v → (grads p).length ≤ v.length) := by
  obtain ⟨h1, h2⟩ := stepParams_momentum_zero learning_rate sq grads model cache hc
  exact ⟨h1, stepParams_sgd_cache 0 learning_rate sq grads model cache,
    stepParams_err_none "momentum" 0 learning_rate sq grads (Or.inr (Or.inl rfl)) model cache,
    stepParams_err_none "sgd" 0 learning_rate sq grads (Or.inl rfl) model cache, h2⟩

/-- C10 witness: the equivalence evaluated at a concrete one-parameter model
with gradient `[2]`, learning rate 1 and empty cache. -/
theorem C10_witness :
    (stepParams "momentum" 0 1 (fun x => x) (fun _ => [2]) [("W1", [5])] []).1
      = (stepParams "sgd" 0 1 (fun x => x) (fun _ => [2]) [("W1", [5])] []).1 ∧
    (stepParams "sgd" 0 1 (fun x => x) (fun _ => [2]) [("W1", [5])] []).2.1 = [] ∧
    (stepParams "momentum" 0 1 (fun x => x) (fun _ => [2]) [("W1", [5])] []).2.2 = none ∧
    (stepParams "sgd" 0 1 (fun x => x) (fun _ => [2]) [("W1", [5])] []).2.2 = none ∧
    (∀ p v, dlookup (stepParams "momentum" 0 1 (fun x => x)
        (fun _ => [2]) [("W1", [5])] []).2.1 p = some v → ((fun _ => ([2] : Arr)) p).length ≤ v.length) :=
  C10_momentum_zero_equals_sgd 1 (fun x => x) (fun _ => [2]) [("W1", [5])] []
    (fun p v hv => by simp [dlookup] at hv)

/-! ### Runs that fail during the first iteration -/

lemma foldl_range_of_first_err (env : TrainEnv) (cfg : TrainConfig) (ipe N : Nat)
    (s0 : TrainState) (h : (iterBody env cfg ipe N 0 s0).err.isSome = true) :
    ∀ n, 0 < n →
      (List.range n).foldl (fun s it => iterBody env cfg ipe N it s) s0
        = iterBody env cfg ipe N 0 s0 := by
  intro n
  induction n with
  | zero => intro h0; exact absurd h0 (lt_irrefl 0)
  | succ k ih =>
    intro _
    rw [List.range_succ, List.foldl_append]
    by_cases hk : 0 < k
    · rw [ih hk]
      exact iterBody_err_absorb env cfg ipe N k _ h
    · have hk0 : k = 0 := by omega
      subst hk0
      rfl

lemma evalTrigger_zero (cfg : TrainConfig) (ipe : Nat) : evalTrigger cfg ipe 0 = true := by
  simp [evalTrigger]

/-- C2 (code bug): line 333 of `train_memmap` computes
`X_batch = augment_fn(X[batch_mask])` but line 336 computes cost and
gradients on the raw `X[batch_mask]`, discarding the augmented batch
(contrary to the docstring and to the sibling `train` method); consequently
every run is entirely independent of `augment_fn`. -/
theorem C2_augment_fn_ignored (env : TrainEnv) (cfg : TrainConfig) (m : Model)
    (t : ClassifierTrainer) (f : List Arr → List Arr) :
    t.train_memmap env { cfg with augment_fn := some f } m
      = t.train_memmap env { cfg with augment_fn := none } m := rfl

/-- C8: `train_memmap` is deterministic modulo the random sampling stream:
two calls given equal trainer state, equal data/collaborators (including the
`np.random.choice` stream), equal configuration and equal model produce
identical loss histories, identical best models, and in fact identical final
states. -/
theorem C8_deterministic (t t' : ClassifierTrainer) (env env' : TrainEnv)
    (cfg cfg' : TrainConfig) (m m' : Model)
    (h1 : t = t') (h2 : env = env') (h3 : cfg = cfg') (h4 : m = m') :
    (t.train_memmap env cfg m).1.loss_history
      = (t'.train_memmap env' cfg' m').1.loss_history ∧
    (t.train_memmap env cfg m).1.best_model
      = (t'.train_memmap env' cfg' m').1.best_model ∧
    t.train_memmap env cfg m = t'.train_memmap env' cfg' m' := by
  subst h1
  subst h2
  subst h3
  subst h4
  exact ⟨rfl, rfl, rfl⟩

/-! ### Concrete fixtures for witnesses and counterexamples -/

/-- A 3-sample training set with a 2-sample validation set: `batch_size = 2`
does not divide the (unsubsampled) evaluation training subset of size 3. -/
def envA : TrainEnv where
  X := fun _ => [0]
  y := fun _ => 0
  train_inds := [0, 1, 2]
  val_inds := [0, 1]
  lossGrad := fun _ _ _ _ _ => (5, fun _ => [1])
  predictOnly := fun xb _ => xb.map (fun _ => 0)
  pearson := fun _ _ => some 0
  sqrtFn := fun x => x
  rand := fun _ _ _ => [0, 1]

def cfgA : TrainConfig :=
  { update := "sgd", learning_rate := 1, sample_batches := true,
    num_epochs := 1, batch_size := 2 }

def mA : Model := [("W1", [0]), ("W2", [0])]

/-- A well-formed 1-sample setup on which one full `momentum` iteration runs
without error. -/
def envB : TrainEnv where
  X := fun _ => [0]
  y := fun _ => 0
  train_inds := [0]
  val_inds := [0]
  lossGrad := fun _ _ _ _ _ => (3, fun _ => [1])
  predictOnly := fun xb _ => xb.map (fun _ => 0)
  pearson := fun _ _ => some 1
  sqrtFn := fun x => x
  rand := fun _ _ _ => [0]

def cfgB : TrainConfig :=
  { update := "momentum", momentum := 1/2, learning_rate := 1,
    sample_batches := true, num_epochs := 1, batch_size := 1 }

def mB : Model := [("W1", [0]), ("W2", [0])]

/-- `envB` with a NaN-returning Pearson correlation. -/
def envB9 : TrainEnv :=
  { envB with pearson := fun _ _ => none }

/-- C8 witness: the determinism theorem applied at a concrete seeded run. -/
theorem C8_witness :
    (ClassifierTrainer.new.train_memmap envB cfgB mB).1.loss_history
      = (ClassifierTrainer.new.train_memmap envB cfgB mB).1.loss_history ∧
    (ClassifierTrainer.new.train_memmap envB cfgB mB).1.best_model
      = (ClassifierTrainer.new.train_memmap envB cfgB mB).1.best_model ∧
    ClassifierTrainer.new.train_memmap envB cfgB mB
      = ClassifierTrainer.new.train_memmap envB cfgB mB :=
  C8_deterministic ClassifierTrainer.new ClassifierTrainer.new envB envB cfgB cfgB mB mB
    rfl rfl rfl rfl

/-- C9 witness: a run whose every validation correlation is NaN returns the
empty best model. -/
theorem C9_witness :
    (ClassifierTrainer.new.train_memmap envB9 cfgB mB).1.best_model = [] ∧
    (ClassifierTrainer.new.train_memmap envB9 cfgB mB).1.best_val_acc = 0 :=
  C9_no_improvement_empty_best_model ClassifierTrainer.new envB9 cfgB mB
    (Or.inr (fun a b v h => by simp [envB9] at h))

/-! ### C4: unknown update rule -/

lemma trainPhase_unknown_eq (env : TrainEnv) (cfg : TrainConfig) (N : Nat) (s : TrainState)
    (h1 : cfg.update ≠ "sgd") (h2 : cfg.update ≠ "momentum") (h3 : cfg.update ≠ "rmsprop")
    (p : String) (w : Arr) (rest : Model) (hm : s.model = (p, w) :: rest) :
    (trainPhase env cfg N s).err = some (.unsupportedUpdateRule cfg.update) ∧
    (trainPhase env cfg N s).model = s.model ∧
    (trainPhase env cfg N s).cache = s.cache := by
  refine ⟨?_, ?_, ?_⟩ <;>
    cases hc : cfg.sample_batches <;>
      simp [trainPhase, hc, hm, stepParams_unknown, h1, h2, h3]

/-- C4 (amended): with an update rule outside sgd/momentum/rmsprop, a
non-empty model and at least one scheduled iteration, `train_memmap` raises
`UnsupportedUpdateRule` during iteration 0, after the first cost has been
appended to the loss history (so exactly one loss evaluation is recorded)
but before any parameter of `model` or any step-cache entry is changed, and
before any accuracy history entry is recorded. -/
theorem C4_amended_unsupported_update_first_iteration (env : TrainEnv) (cfg : TrainConfig)
    (t : ClassifierTrainer) (m : Model)
    (hm : m ≠ [])
    (hn : 0 < numIters env cfg)
    (h1 : cfg.update ≠ "sgd") (h2 : cfg.update ≠ "momentum") (h3 : cfg.update ≠ "rmsprop") :
    (t.train_memmap env cfg m).1.err = some (.unsupportedUpdateRule cfg.update) ∧
    (t.train_memmap env cfg m).1.loss_history.length = 1 ∧
    (t.train_memmap env cfg m).1.model = m ∧
    (t.train_memmap env cfg m).1.cache = t.step_cache ∧
    (t.train_memmap env cfg m).1.train_acc_history = [] ∧
    (t.train_memmap env cfg m).1.val_acc_history = [] := by
  rcases m with _ | ⟨⟨p, w⟩, rest⟩
  · exact absurd rfl hm
  · obtain ⟨herr, hmodel, hcache⟩ :=
      trainPhase_unknown_eq env cfg env.train_inds.length (initState t cfg ((p, w) :: rest))
        h1 h2 h3 p w rest rfl
    have hF : iterBody env cfg (iterationsPerEpoch env cfg) env.train_inds.length 0
        (initState t cfg ((p, w) :: rest))
          = trainPhase env cfg env.train_inds.length (initState t cfg ((p, w) :: rest)) := by
      unfold iterBody evalPhase
      rw [if_neg (by simp [initState]), if_pos (by simp [herr])]
    have hrun : (t.train_memmap env cfg ((p, w) :: rest)).1
        = trainPhase env cfg env.train_inds.length (initState t cfg ((p, w) :: rest)) := by
      show (trainMemmapLoop env cfg (initState t cfg ((p, w) :: rest))) = _
      unfold trainMemmapLoop
      rw [foldl_range_of_first_err env cfg _ _ _ (by rw [hF, herr]; rfl) (numIters env cfg) hn]
      exact hF
    rw [hrun]
    refine ⟨herr, ?_, hmodel, ?_, ?_, ?_⟩
    · rw [trainPhase_loss_length]
      rfl
    · rw [hcache]
      rfl
    · rw [trainPhase_train_acc_history]
      rfl
    · rw [trainPhase_val_acc_history]
      rfl

def cfgBogus : TrainConfig :=
  { update := "bogus", learning_rate := 1, sample_batches := true,
    num_epochs := 1, batch_size := 1 }

/-- C4 counterexample: with `update = "bogus"` on a concrete run,
`train_memmap` does raise `UnsupportedUpdateRule`, but only after one loss
evaluation has already been recorded in the loss history — refuting the
claim that the failure happens before any loss evaluation is recorded. -/
theorem C4_counterexample :
    (ClassifierTrainer.new.train_memmap envB cfgBogus mB).1.err
        = some (.unsupportedUpdateRule "bogus") ∧
    (ClassifierTrainer.new.train_memmap envB cfgBogus mB).1.loss_history = [3] := by
  have s1 : ("bogus" = "sgd") = False := by simp
  have s2 : ("bogus" = "momentum") = False := by simp
  have s3 : ("bogus" = "rmsprop") = False := by simp
  constructor <;>
    norm_num [s1, s2, s3, ClassifierTrainer.train_memmap, trainMemmapLoop, numIters,
      iterationsPerEpoch, initState, ClassifierTrainer.new, iterBody, trainPhase, evalPhase,
      evalTrigger, evalBody, evalTail, decayStep, trainMaskAt, pickInds, batchSlice, predsFor,
      valAccOf, trainAccOf, bestUpdate, stepParams, updateParam, setCache, addVec, copyModel,
      dlookup, envB, cfgBogus, mB, List.range_succ, epochEnd]

/-- C4 witness: the amended theorem applied at the concrete `bogus` run. -/
theorem C4_amended_witness :
    (ClassifierTrainer.new.train_memmap envB cfgBogus mB).1.err
        = some (.unsupportedUpdateRule cfgBogus.update) ∧
    (ClassifierTrainer.new.train_memmap envB cfgBogus mB).1.loss_history.length = 1 ∧
    (ClassifierTrainer.new.train_memmap envB cfgBogus mB).1.model = mB ∧
    (ClassifierTrainer.new.train_memmap envB cfgBogus mB).1.cache
        = ClassifierTrainer.new.step_cache ∧
    (ClassifierTrainer.new.train_memmap envB cfgBogus mB).1.train_acc_history = [] ∧
    (ClassifierTrainer.new.train_memmap envB cfgBogus mB).1.val_acc_history = [] :=
  C4_amended_unsupported_update_first_iteration envB cfgBogus ClassifierTrainer.new mB
    (by simp [mB]) (by decide) (by decide) (by decide) (by decide)

/-! ### C3: step-cache lifecycle -/

/-- C3 (amended): for `momentum` and `rmsprop`, a step-cache entry is
zero-initialized lazily exactly once per parameter name — when the name is
absent the rule creates the entry (immediately storing an array of the
gradient's shape), and when it is present the stored array is used as is,
never re-initialized; but the `StepCache` is NOT discarded at the end of the
`train_memmap` call: it lives on the `ClassifierTrainer` instance
(`self.step_cache`, touched only by `__init__`), the run starts from
whatever the instance currently holds, and the instance afterwards holds the
run's final cache, so a second call on the same instance starts from the
cache left by the first. -/
theorem C3_amended_cache_lazy_and_persistent :
    (∀ (momentum learning_rate : ℚ) (sq : ℚ → ℚ) (cache : Cache) (p : String) (g : Arr),
       dlookup cache p = none →
       ∃ dx, updateParam "momentum" momentum learning_rate sq cache p g
           = .ok (dx, setCache cache p dx) ∧ dx.length = g.length) ∧
    (∀ (momentum learning_rate : ℚ) (sq : ℚ → ℚ) (cache : Cache) (p : String) (g : Arr),
       dlookup cache p = none →
       ∃ dx c1, updateParam "rmsprop" momentum learning_rate sq cache p g
           = .ok (dx, setCache cache p c1) ∧ c1.length = g.length) ∧
    (∀ (momentum learning_rate : ℚ) (sq : ℚ → ℚ) (cache : Cache) (p : String) (g v : Arr),
       dlookup cache p = some v →
       updateParam "momentum" momentum learning_rate sq cache p g
         = .ok (List.zipWith (fun ci gi => momentum * ci - learning_rate * gi) v g,
                setCache cache p
                  (List.zipWith (fun ci gi => momentum * ci - learning_rate * gi) v g))) ∧
    (∀ (momentum learning_rate : ℚ) (sq : ℚ → ℚ) (cache : Cache) (p : String) (g v : Arr),
       dlookup cache p = some v →
       updateParam "rmsprop" momentum learning_rate sq cache p g
         = .ok (List.zipWith (fun gi ci => -(learning_rate * gi) / sq (ci + 1/100000000)) g
                  (List.zipWith (fun ci gi => ci * (99/100) + (1 - 99/100) * gi ^ 2) v g),
                setCache cache p
                  (List.zipWith (fun ci gi => ci * (99/100) + (1 - 99/100) * gi ^ 2) v g))) ∧
    (∀ (t : ClassifierTrainer) (env : TrainEnv) (cfg : TrainConfig) (m : Model),
       (initState t cfg m).cache = t.step_cache ∧
       (t.train_memmap env cfg m).2.step_cache
         = (trainMemmapLoop env cfg (initState t cfg m)).cache) := by
  refine ⟨?_, ?_, ?_, ?_, ?_⟩
  · intro momentum learning_rate sq cache p g h
    rw [updateParam_momentum, h]
    exact ⟨_, rfl, by simp⟩
  · intro momentum learning_rate sq cache p g h
    rw [updateParam_rmsprop, h]
    exact ⟨_, _, rfl, by simp⟩
  · intro momentum learning_rate sq cache p g v h
    rw [updateParam_momentum, h]
    rfl
  · intro momentum learning_rate sq cache p g v h
    rw [updateParam_rmsprop, h]
    rfl
  · intro t env cfg m
    exact ⟨rfl, rfl⟩

/-- C3 counterexample: after one concrete `momentum` run the trainer
instance's `step_cache` is non-empty (it holds the last steps for `W1` and
`W2`), so the state a second `train_memmap` call on the same instance starts
from is not the empty, all-fresh cache the claim asserts. -/
theorem C3_counterexample :
    (ClassifierTrainer.new.train_memmap envB cfgB mB).2.step_cache
        = [("W1", [-1]), ("W2", [-1])] ∧
    (initState (ClassifierTrainer.new.train_memmap envB cfgB mB).2 cfgB mB).cache ≠ [] := by
  have hrun : (ClassifierTrainer.new.train_memmap envB cfgB mB).2.step_cache
      = [("W1", [-1]), ("W2", [-1])] := by
    have s1 : ("momentum" = "sgd") = False := by simp
    have s2 : ("W1" = "W2") = False := by simp
    have s3 : ("W2" = "W1") = False := by simp
    norm_num [s1, s2, s3, ClassifierTrainer.train_memmap, trainMemmapLoop, numIters,
      iterationsPerEpoch, initState, ClassifierTrainer.new, iterBody, trainPhase, evalPhase,
      evalTrigger, evalBody, evalTail, decayStep, trainMaskAt, pickInds, batchSlice, predsFor,
      valAccOf, trainAccOf, bestUpdate, stepParams, updateParam, setCache, addVec, copyModel,
      dlookup, envB, cfgB, mB, List.range_succ, epochEnd]
    rw [apply_ite TrainState.cache, ite_self]
  refine ⟨hrun, ?_⟩
  show (ClassifierTrainer.new.train_memmap envB cfgB mB).2.step_cache ≠ []
  rw [hrun]
  simp

/-- C3 witness: the amended theorem's parts evaluated at concrete inputs. -/
theorem C3_amended_witness :
    (∃ dx, updateParam "momentum" (1/2) 1 (fun x => x) [] "W1" [1, 2]
        = .ok (dx, setCache [] "W1" dx) ∧ dx.length = ([1, 2] : Arr).length) ∧
    (∃ dx c1, updateParam "rmsprop" (1/2) 1 (fun x => x) [] "W1" [1, 2]
        = .ok (dx, setCache [] "W1" c1) ∧ c1.length = ([1, 2] : Arr).length) ∧
    updateParam "momentum" (1/2) 1 (fun x => x) [("W1", [3])] "W1" [2]
      = .ok (List.zipWith (fun ci gi => (1/2 : ℚ) * ci - 1 * gi) [3] [2],
             setCache [("W1", [3])] "W1"
               (List.zipWith (fun ci gi => (1/2 : ℚ) * ci - 1 * gi) [3] [2])) ∧
    updateParam "rmsprop" (1/2) 1 (fun x => x) [("W1", [3])] "W1" [2]
      = .ok (List.zipWith (fun gi ci => -((1 : ℚ) * gi) / (ci + 1/100000000)) [2]
               (List.zipWith (fun ci gi => ci * (99/100) + (1 - 99/100) * gi ^ 2) [3] [2]),
             setCache [("W1", [3])] "W1"
               (List.zipWith (fun ci gi => ci * (99/100) + (1 - 99/100) * gi ^ 2) [3] [2])) ∧
    (initState ClassifierTrainer.new cfgB mB).cache = ClassifierTrainer.new.step_cache ∧
    (ClassifierTrainer.new.train_memmap envB cfgB mB).2.step_cache
      = (trainMemmapLoop envB cfgB (initState ClassifierTrainer.new cfgB mB)).cache :=
  ⟨C3_amended_cache_lazy_and_persistent.1 (1/2) 1 (fun x => x) [] "W1" [1, 2] rfl,
   C3_amended_cache_lazy_and_persistent.2.1 (1/2) 1 (fun x => x) [] "W1" [1, 2] rfl,
   C3_amended_cache_lazy_and_persistent.2.2.1 (1/2) 1 (fun x => x) [("W1", [3])] "W1" [2] [3]
     (by simp [dlookup]),
   C3_amended_cache_lazy_and_persistent.2.2.2.1 (1/2) 1 (fun x => x) [("W1", [3])] "W1" [2] [3]
     (by simp [dlookup]),
   (C3_amended_cache_lazy_and_persistent.2.2.2.2 ClassifierTrainer.new envB cfgB mB).1,
   (C3_amended_cache_lazy_and_persistent.2.2.2.2 ClassifierTrainer.new envB cfgB mB).2⟩

/-! ### C1: batch-divisibility assertion timing -/

/-- C1 (amended): with minibatching on, a supported update rule, and at
least one scheduled iteration (`0 < batch_size ≤ N_train`, `0 < num_epochs`),
if `batch_size` does not divide the evaluation training-subset size or the
validation-set size, the run fails with the divisibility `ConfigError` — but
only at the first evaluation event, which happens during iteration 0 *after*
the first cost has been appended to the loss history and the first
parameter update has been applied to `model`: the failed run's loss history
holds exactly one entry, not zero. -/
theorem C1_amended_configError_at_first_eval (env : TrainEnv) (cfg : TrainConfig)
    (t : ClassifierTrainer) (m : Model)
    (hsb : cfg.sample_batches = true)
    (hbs : 0 < cfg.batch_size)
    (hle : cfg.batch_size ≤ env.train_inds.length)
    (hne : 0 < cfg.num_epochs)
    (hupd : cfg.update = "sgd" ∨ cfg.update = "momentum" ∨ cfg.update = "rmsprop")
    (hdiv : (trainMaskAt env env.train_inds.length 1).length % cfg.batch_size ≠ 0 ∨
            env.val_inds.length % cfg.batch_size ≠ 0) :
    (t.train_memmap env cfg m).1.err = some .configError ∧
    (t.train_memmap env cfg m).1.loss_history.length = 1 := by
  have herr1 : (trainPhase env cfg env.train_inds.length (initState t cfg m)).err = none :=
    trainPhase_err_none env cfg env.train_inds.length (initState t cfg m) hupd
  have hrng : (trainPhase env cfg env.train_inds.length (initState t cfg m)).rngCalls = 1 := by
    rw [trainPhase_rngCalls, hsb]
    simp [initState]
  have hloss1 :
      (trainPhase env cfg env.train_inds.length (initState t cfg m)).loss_history.length = 1 := by
    rw [trainPhase_loss_length]
    simp [initState]
  have hbody :
      (evalBody env cfg (iterationsPerEpoch env cfg) env.train_inds.length 0
          (trainPhase env cfg env.train_inds.length (initState t cfg m))).err
        = some .configError ∧
      (evalBody env cfg (iterationsPerEpoch env cfg) env.train_inds.length 0
          (trainPhase env cfg env.train_inds.length (initState t cfg m))).loss_history
        = (trainPhase env cfg env.train_inds.length (initState t cfg m)).loss_history := by
    unfold evalBody
    rw [decayStep_zero]
    dsimp only
    rw [hrng]
    by_cases hA : (trainMaskAt env env.train_inds.length 1).length % cfg.batch_size = 0
    · rw [if_neg (by simp [hsb, hA])]
      rcases hdiv with hd | hd
      · exact absurd hA hd
      · unfold evalTail
        rw [if_pos (by simp [hsb, hd])]
        exact ⟨rfl, by simp [apply_ite TrainState.loss_history]⟩
    · rw [if_pos (by simp [hsb, hA])]
      exact ⟨rfl, by simp [apply_ite TrainState.loss_history]⟩
  have hF : iterBody env cfg (iterationsPerEpoch env cfg) env.train_inds.length 0
      (initState t cfg m)
        = evalBody env cfg (iterationsPerEpoch env cfg) env.train_inds.length 0
            (trainPhase env cfg env.train_inds.length (initState t cfg m)) := by
    unfold iterBody evalPhase
    rw [if_neg (by simp [initState]), if_neg (by simp [herr1]),
      if_pos (evalTrigger_zero cfg (iterationsPerEpoch env cfg))]
  have hpos : 0 < numIters env cfg := by
    unfold numIters iterationsPerEpoch
    rw [hsb]
    simp only [if_true]
    exact Nat.mul_pos hne ((Nat.one_le_div_iff hbs).mpr hle)
  have hrun : (t.train_memmap env cfg m).1
      = evalBody env cfg (iterationsPerEpoch env cfg) env.train_inds.length 0
          (trainPhase env cfg env.train_inds.length (initState t cfg m)) := by
    show trainMemmapLoop env cfg (initState t cfg m) = _
    unfold trainMemmapLoop
    rw [foldl_range_of_first_err env cfg _ _ _ (by rw [hF]; simp [hbody.1])
      (numIters env cfg) hpos]
    exact hF
  rw [hrun]
  refine ⟨hbody.1, ?_⟩
  rw [hbody.2]
  exact hloss1

/-- C1 counterexample: a concrete `sgd` run (3 training samples, 2-sample
validation set, `batch_size = 2`, so 2 does not divide the training-subset
size 3) does fail with the divisibility `ConfigError`, yet at the moment of
failure the loss history already holds one entry and `model` has already
been mutated away from its initial value — refuting the claim that the
failure happens before training starts. -/
theorem C1_counterexample :
    (ClassifierTrainer.new.train_memmap envA cfgA mA).1.err = some .configError ∧
    (ClassifierTrainer.new.train_memmap envA cfgA mA).1.loss_history = [5] ∧
    (ClassifierTrainer.new.train_memmap envA cfgA mA).1.loss_history ≠ [] ∧
    (ClassifierTrainer.new.train_memmap envA cfgA mA).1.model = [("W1", [-1]), ("W2", [-1])] ∧
    (ClassifierTrainer.new.train_memmap envA cfgA mA).1.model ≠ mA := by
  have s2 : ("W1" = "W2") = False := by simp
  have s3 : ("W2" = "W1") = False := by simp
  refine ⟨?_, ?_, ?_, ?_, ?_⟩ <;>
    norm_num [s2, s3, ClassifierTrainer.train_memmap, trainMemmapLoop, numIters,
      iterationsPerEpoch, initState, ClassifierTrainer.new, iterBody, trainPhase, evalPhase,
      evalTrigger, evalBody, evalTail, decayStep, trainMaskAt, pickInds, batchSlice, predsFor,
      valAccOf, trainAccOf, bestUpdate, stepParams, updateParam, setCache, addVec, copyModel,
      dlookup, envA, cfgA, mA, List.range_succ, epochEnd]

/-- C1 witness: the amended theorem applied at the concrete failing run. -/
theorem C1_amended_witness :
    (ClassifierTrainer.new.train_memmap envA cfgA mA).1.err = some .configError ∧
    (ClassifierTrainer.new.train_memmap envA cfgA mA).1.loss_history.length = 1 :=
  C1_amended_configError_at_first_eval envA cfgA ClassifierTrainer.new mA
    rfl (by decide) (by decide) (by decide) (Or.inl rfl) (Or.inl (by decide))

end DeepRetina
